import Mathlib

/-!
Verification of the macon heat-pump telemetry scripts.

This file shallowly embeds the pure decoding and row-assembly logic of the
repository (debug_multiplexer.py, debug_solar.py, monitor_solar_live.py,
test_solar_fix.py, maconread2db.py, write_freq.py) into Lean and proves or
refutes the specification claims about it.

Conventions of the embedding:
* Python integers are `ℤ` (or `ℕ` where the source value is a raw 16-bit
  register word delivered by the Modbus layer, hence non-negative).
* Python `(value >> i) & 1` is written `value >>> i &&& 1` over `ℕ`.
* Python `round(x, 2)` (round to two decimal places) is modelled over `ℚ`
  by `round2`; the spec claims only hold the decoded value to float
  tolerance, which absorbs the difference between the rounding modes.
* Python dictionaries are association lists in insertion order; dictionary
  lookup is `List.find?` on the key.
* Fallible reads return `Option`.
-/

namespace Macon

/-! ## Numeric folds (debug_multiplexer.py lines 8-9, monitor_solar_live.py
lines 9-10, test_solar_fix.py lines 7-8) -/

/-- Source `def to_u(v): return v if v>=0 else v+65536` — two-complement
fold of a Python int into the unsigned 16-bit range. -/
def to_u (v : ℤ) : ℤ := if v ≥ 0 then v else v + 65536

/-- Source `def to_s(v): return v if v<32768 else v-65536` — fold of a
16-bit word into the signed range. -/
def to_s (v : ℤ) : ℤ := if v < 32768 then v else v - 65536

/-! ## Solar temperature decoder (debug_solar.py line 8, test_solar_fix.py
line 9) -/

/-- Model of Python `round(q, 2)`: round to two decimal places. -/
def round2 (q : ℚ) : ℚ := (round (q * 100) : ℚ) / 100

/-- Source `def calc_so(r): return round((r-26402)/60, 2) if 4000<r<40000
else 0.0` — the solar temperature decoder.  Note the strict comparisons: the
engineering formula is applied only on the open interval `(4000, 40000)`,
and every other raw value is mapped to the literal `0.0`. -/
def calc_so (r : ℤ) : ℚ :=
  if 4000 < r ∧ r < 40000 then round2 (((r : ℚ) - 26402) / 60) else 0

/-- Validity display check from debug_solar.py line 37:
`4000 <= raw_so <= 40000` (the closed interval). -/
def so_in_range (r : ℤ) : Bool := decide (4000 ≤ r ∧ r ≤ 40000)

/-! ## Phase resolution (debug_multiplexer.py lines 41-42,
monitor_solar_live.py lines 38-39) -/

/-- Multiplexer phase: the two time slots of the analog multiplexer. -/
inductive Phase where
  | A
  | B
deriving DecidableEq, Repr

/-- Source `phase_a = bool(status & 0x10)` — Python bitwise AND on a
(possibly negative) int is two-complement AND, `Int.land`; truthiness of an
int is being nonzero. -/
def phase_a (status : ℤ) : Bool := decide (Int.land status 16 ≠ 0)

/-- Source `phase = ... if phase_a else ...` (selecting A or B) applied to
`status = to_s(reg[10])` for a raw status word `w` delivered by the Modbus
layer. -/
def phaseOf (w : ℕ) : Phase := if phase_a (to_s w) then Phase.A else Phase.B

/-! ## Diagnostic classification (debug_multiplexer.py lines 74-99) -/

/-- Top-level branches of the final diagnosis in debug_multiplexer.py.  The
first two constructors are the `raw_so == 0` branch (split on
`raw_vl > 0 and raw_ww > 0`); both hypothesise a disconnected sensor or a
multiplexer that is not switching. -/
inductive SolarDiag where
  | sensorDisconnectedOrMux
  | phaseBMuxNotWorking
  | rawTooLow
  | rawTooHigh
  | rawOk
deriving DecidableEq, Repr

/-- Branch structure of the DIAGNOSE block of debug_multiplexer.py
(lines 74-99): `if raw_so == 0: ... elif raw_so < 4000: ... elif
raw_so > 40000: ... else: ...`. -/
def diagnosis (raw_so raw_vl raw_ww : ℕ) : SolarDiag :=
  if raw_so = 0 then
    if 0 < raw_vl ∧ 0 < raw_ww then SolarDiag.sensorDisconnectedOrMux
    else SolarDiag.phaseBMuxNotWorking
  else if raw_so < 4000 then SolarDiag.rawTooLow
  else if raw_so > 40000 then SolarDiag.rawTooHigh
  else SolarDiag.rawOk

/-- Branches of the DIAGNOSE block of debug_solar.py (lines 47-59).  The
first branch also hypothesises a not-connected sensor or a short circuit. -/
inductive DsDiag where
  | tooLowShortOrDisconnected
  | tooHigh
  | zeroOrFullScaleNotConnected
  | inRangeOk
deriving DecidableEq, Repr

/-- Branching `if raw_so < 4000: ... elif raw_so > 40000: ... elif raw_so
== 0 or raw_so == 65535: ... else: ...` from debug_solar.py. -/
def ds_diagnosis (raw : ℕ) : DsDiag :=
  if raw < 4000 then DsDiag.tooLowShortOrDisconnected
  else if raw > 40000 then DsDiag.tooHigh
  else if raw = 0 ∨ raw = 65535 then DsDiag.zeroOrFullScaleNotConnected
  else DsDiag.inRangeOk

/-! ## Register map and bit map of maconread2db.py (lines 54-130) -/

/-- REGISTER_MAP: register address → (column name, unit), in source order. -/
def REGISTER_MAP : List (ℕ × String × Option String) :=
  [ (2004, "Hot_water_temperature", some "°C"),
    (2007, "Hot_water_tank_delta_T", some "°C"),
    (2047, "Frequency_reduction", none),
    (2052, "Water_pump_mode", none),
    (2056, "Accept_host_frequency_control", none),
    (2057, "Host_unit_compressor_frequency", some "Hz"),
    (2100, "Water_tank_temperature", some "°C"),
    (2102, "Outlet_water_temperature", some "°C"),
    (2103, "Inlet_water_temperature", some "°C"),
    (2104, "Discharge_temperature", some "°C"),
    (2105, "Suction_temperature", some "°C"),
    (2107, "External_coil_temperature", some "°C"),
    (2108, "Cooling_coil_temperature", some "°C"),
    (2110, "Outdoor_ambient_temperature", some "°C"),
    (2114, "IPM_temperature", some "°C"),
    (2115, "Brine_inlet_temp", some "°C"),
    (2116, "Brine_outlet_temp", some "°C"),
    (2118, "Compressor_frequency", some "Hz"),
    (2120, "AC_voltage", some "V"),
    (2121, "AC_current", some "A"),
    (2122, "DC_voltage", some "V"),
    (2124, "Primary_EEV_opening", some "%"),
    (2125, "Secondary_EEV_opening", some "%"),
    (2133, "System_status_1", some "bits"),
    (2134, "Error_code_1", some "bits"),
    (2135, "System_status_2", some "bits"),
    (2136, "System_status_3", some "bits"),
    (2137, "Error_code_2", some "bits"),
    (2138, "Error_code_3", some "bits") ]

/-- Dictionary lookup `REGISTER_MAP[reg]` / membership `reg in REGISTER_MAP`. -/
def regMap (a : ℕ) : Option (String × Option String) :=
  (REGISTER_MAP.find? (fun e => e.1 == a)).map (fun e => e.2)

/-- BIT_MAP of maconread2db.py: register address → declared (bit, label)
pairs, in source order. -/
def BIT_MAP : List (ℕ × List (ℕ × String)) :=
  [ (2135, [ (1, "Compressor_status"), (5, "Water_pump"), (6, "4way_valve"),
             (7, "Electric_heater"), (8, "Water_flow_switch"),
             (9, "High_pressure_switch"), (10, "Low_pressure_switch"),
             (13, "3way_valve1"), (14, "3way_valve2") ]),
    (2136, [ (5, "Defrost"), (8, "Wired_controller"), (9, "Energy_saving"),
             (10, "Primary_antifreeze"), (11, "Secondary_antifreeze"),
             (12, "Sterilizing"), (13, "Secondary_pump") ]),
    (2137, [ (5, "External_coil_temp_error"), (6, "Discharge_temp_error"),
             (7, "Suction_temp_error"), (8, "Ambient_temp_error"),
             (9, "Comm_drive_error"), (10, "Comm_controller_error") ]),
    (2138, [ (5, "High_discharge_protect"), (6, "High_pressure_protect"),
             (7, "Low_pressure_protect"), (8, "Water_flow_protect"),
             (10, "Low_ambient_protect"), (14, "Low_outlet_temp_protect") ]) ]

/-- Dictionary lookup `BIT_MAP[reg]`, defaulting to the empty declaration. -/
def bitMapFor (a : ℕ) : List (ℕ × String) :=
  ((BIT_MAP.find? (fun e => e.1 == a)).map (fun e => e.2)).getD []

/-- Column name `f"Bit{bit}_{label}"` used by maconread2db.py. -/
def bitColName (bit : ℕ) (label : String) : String :=
  "Bit" ++ toString bit ++ "_" ++ label

/-- Source `def decode_bits(value): return ... for i in range(16)`, a
comprehension over all sixteen indices mapping i to `(value >> i) & 1` —
the one-argument decoder of maconread2db.py line 132: it reports ALL
sixteen bit positions, declared or not. -/
def decode_bits (value : ℕ) : List (ℕ × ℕ) :=
  (List.range 16).map (fun i => (i, value >>> i &&& 1))

/-- Python `bits.get(bit, 0)` on the dictionary produced by `decode_bits`. -/
def bitsGet (d : List (ℕ × ℕ)) (i : ℕ) : ℕ :=
  ((d.find? (fun e => e.1 == i)).map (fun e => e.2)).getD 0

/-! ## Bit-field decoder of write_freq.py (lines 44-58 and 95-96) -/

/-- BIT_FIELDS of write_freq.py: register address → declared
(bit, description) pairs. -/
def BIT_FIELDS : List (ℕ × List (ℕ × String)) :=
  [ (2136, [ (3, "Brine side water pump (0=OFF, 1=ON)"),
             (5, "Defrost (0=OFF, 1=ON)"),
             (8, "Wired controller connecting status (0=Disconnected, 1=Connected)") ]),
    (2137, [ (2, "Inlet water temp sensor error (0=OK, 1=Error)"),
             (3, "Outlet water temp sensor error (0=OK, 1=Error)"),
             (8, "Ambient temperature sensor error (0=OK, 1=Error)") ]) ]

/-- Dictionary lookup `BIT_FIELDS.get(reg, {})`. -/
def bitFieldsFor (reg : ℕ) : List (ℕ × String) :=
  ((BIT_FIELDS.find? (fun e => e.1 == reg)).map (fun e => e.2)).getD []

/-- Source `def decode_bits(value, reg)`, a comprehension over `i in
BIT_FIELDS.get(reg, ...)` mapping i to `(value >> i) & 1` together with the
declared description — the two-argument decoder of write_freq.py: it iterates only over the bit
indices declared for `reg` (the `desc` default is never taken since `i`
ranges over the keys themselves). -/
def decode_bits_wf (value reg : ℕ) : List (ℕ × ℕ × String) :=
  (bitFieldsFor reg).map (fun p => (p.1, value >>> p.1 &&& 1, p.2))

/-! ## Modbus read helpers (maconread2db.py lines 136-152, write_freq.py
lines 98-107) -/

/-- Outcome of `client.read_holding_registers`: a successful response
carrying the register list, a Modbus error response (`res.isError()`), or a
raised `ModbusException`. -/
inductive ModbusResult where
  | success (registers : List ℕ)
  | errorResponse
  | modbusException
deriving DecidableEq, Repr

/-- Model of `read_register`: on a non-error response return `res.registers[0]`,
otherwise fall through to `None`; a `ModbusException` is caught and also
yields `None`. -/
def read_register (res : ModbusResult) : Option ℕ :=
  match res with
  | ModbusResult.success regs => regs.head?
  | ModbusResult.errorResponse => none
  | ModbusResult.modbusException => none

/-- Model of `read_block`: on a non-error response return `res.registers` whole,
otherwise `None`; a `ModbusException` is caught and also yields `None`. -/
def read_block (res : ModbusResult) : Option (List ℕ) :=
  match res with
  | ModbusResult.success regs => some regs
  | ModbusResult.errorResponse => none
  | ModbusResult.modbusException => none

/-! ## Row assembly of maconread2db.py main() (lines 219-254)

The poll cycle is parameterised by the outcome of its external reads:
`readVal reg` is the value `read_register(reg)` returned for each of the
six read-write registers, `blockVal` the value of `read_block(2100, 39)`,
and `volumeflow` the value of `fetch_volumeflow` (which returns `None` on
any database failure). -/

/-- The read-write register list iterated by main():
`for reg in [2004, 2007, 2047, 2052, 2056, 2057]`. -/
def rwRegs : List ℕ := [2004, 2007, 2047, 2052, 2056, 2057]

/-- One iteration of the read-write loop: `val = read_register(reg); if val
is not None and reg in REGISTER_MAP: results[reg] = (desc, val, unit)` —
that is, a failed read contributes nothing to the results dictionary.  Each
entry is kept as (column name, value). -/
def rwPiece (readVal : ℕ → Option ℕ) (reg : ℕ) : List (String × ℕ) :=
  match readVal reg, regMap reg with
  | some v, some nu => [(nu.1, v)]
  | _, _ => []

/-- The read-write part of the results dictionary, in loop order. -/
def rwResults (readVal : ℕ → Option ℕ) : List (String × ℕ) :=
  (rwRegs.map (rwPiece readVal)).flatten

/-- One iteration of the read-only loop over `enumerate(ro_data)`:
`reg = 2100 + i; if reg in REGISTER_MAP: results[reg] = (desc, val, unit)`. -/
def roPiece (i v : ℕ) : List (String × ℕ) :=
  match regMap (2100 + i) with
  | some nu => [(nu.1, v)]
  | none => []

/-- The read-only part of the results dictionary. -/
def roResults (ro : List ℕ) : List (String × ℕ) :=
  (ro.enum.map (fun p => roPiece p.1 p.2)).flatten

/-- The bit-flag expansion performed for one read-only register: `if unit
== "bits" and reg in BIT_MAP: bits = decode_bits(val); for bit, label in
BIT_MAP[reg].items(): bit_expanded[f"Bit{bit}_{label}"] = bits.get(bit, 0)`. -/
def bitPiece (i v : ℕ) : List (String × ℕ) :=
  match regMap (2100 + i) with
  | some nu =>
      if nu.2 = some "bits" ∧ (BIT_MAP.find? (fun e => e.1 == 2100 + i)).isSome then
        (bitMapFor (2100 + i)).map
          (fun b => (bitColName b.1 b.2, bitsGet (decode_bits v) b.1))
      else []
  | none => []

/-- The bit_expanded dictionary built across the read-only block. -/
def bitExpanded (ro : List ℕ) : List (String × ℕ) :=
  (ro.enum.map (fun p => bitPiece p.1 p.2)).flatten

/-- Value stored in one column of the INSERT issued by insert_pivot_row:
the timestamp, an integer register value, a float (Volumeflow), or SQL
NULL (a Python `None` parameter). -/
inductive Cell where
  | ts
  | intval (n : ℕ)
  | floatval (q : ℚ)
  | null
deriving DecidableEq, Repr

/-- SQL parameter binding of the Volumeflow value: a Python `None` becomes
NULL, a numeric value is stored as a float. -/
def vfCell (volumeflow : Option ℚ) : Cell :=
  match volumeflow with
  | some q => Cell.floatval q
  | none => Cell.null

/-- Model of `insert_pivot_row(cursor, timestamp, results, bit_expanded,
volumeflow)` (maconread2db.py lines 195-213): the column/value list of the single INSERT
— timestamp first, then every measurement in `results`, then every expanded
bit flag, then Volumeflow (NULL when the auxiliary fetch failed). -/
def insert_pivot_row (results bits : List (String × ℕ)) (volumeflow : Option ℚ) :
    List (String × Cell) :=
  ("timestamp", Cell.ts) ::
    (results.map (fun p => (p.1, Cell.intval p.2)) ++
     bits.map (fun p => (p.1, Cell.intval p.2)) ++
     [("Volumeflow", vfCell volumeflow)])

/-- The whole row assembled by one poll cycle of main(): read-write results,
then (when `read_block` succeeded with a non-empty — Python-truthy — list)
the read-only results and bit flags, then Volumeflow.  The row is built and
inserted unconditionally: no read failure aborts it. -/
def mainRow (readVal : ℕ → Option ℕ) (blockVal : Option (List ℕ))
    (volumeflow : Option ℚ) : List (String × Cell) :=
  let ro := match blockVal with
            | some l => if l = [] then [] else l
            | none => []
  insert_pivot_row (rwResults readVal ++ roResults ro) (bitExpanded ro) volumeflow

/-! ## Persisted-row semantics and schema synchronisation
(maconread2db.py lines 168-213) -/

/-- Measurement column names, in REGISTER_MAP order. -/
def regNames : List String := REGISTER_MAP.map (fun e => e.2.1)

/-- Expanded bit-flag column names, in BIT_MAP order. -/
def bitColNames : List String :=
  (BIT_MAP.map (fun e => e.2.map (fun b => bitColName b.1 b.2))).flatten

/-- Every column ensure_pivot_columns knows about, in the order the ALTER
statements are attempted: measurements, bit flags, Volumeflow. -/
def knownCols : List String := regNames ++ bitColNames ++ ["Volumeflow"]

/-- Lookup of a column in the INSERT column list. -/
def lookupCol (row : List (String × Cell)) (c : String) : Option Cell :=
  ((row.find? (fun e => e.1 == c)).map (fun e => e.2))

/-- Value of a known column in the persisted row: the INSERT value when the
column is named by the INSERT, otherwise the schema default that
ensure_pivot_columns declared — `TINYINT(1) DEFAULT 0` for bit-flag
columns, `FLOAT NULL` (default NULL) for measurement and Volumeflow
columns. -/
def persisted (row : List (String × Cell)) (c : String) : Cell :=
  match lookupCol row c with
  | some v => v
  | none => if c ∈ bitColNames then Cell.intval 0 else Cell.null

/-- The ALTER ADD COLUMN statements issued by one call of
`ensure_pivot_columns` against the introspected column list `existing`:
one for each known column not already present.  (`existing` is read once
by SHOW COLUMNS before the loops, as in the source.) -/
def ensureColumnsAlters (existing : List String) : List String :=
  knownCols.filter (fun c => !(existing.contains c))

/-- Schema after one call of `ensure_pivot_columns`: the existing columns,
untouched and in place, followed by the newly added ones. -/
def ensureColumns (existing : List String) : List String :=
  existing ++ ensureColumnsAlters existing

/-! ## Shared helper lemmas -/

/-- The decoder maps the centre raw value 26402 to exactly 0. -/
lemma calc_so_center : calc_so 26402 = 0 := by
  rw [calc_so, if_pos (by norm_num)]
  norm_num [round2]

/-! ## C1 — two-complement fold round trip -/

/-- C1, counterexample: the claim `to_signed(to_unsigned(w)) == w` for every
uint16 `w` fails at `w = 32768`: `to_u 32768 = 32768` and
`to_s 32768 = -32768 ≠ 32768`. -/
theorem C1_roundtrip_counterexample :
    to_s (to_u 32768) = -32768 ∧ to_s (to_u 32768) ≠ 32768 := by
  constructor <;> decide

/-- C1, amended: for every 16-bit unsigned word `w ∈ [0, 65535]` the folds
are mutually inverse in the other composition order,
`to_unsigned (to_signed w) = w`; the composition stated by the claim,
`to_signed (to_unsigned w) = w`, holds exactly on `[0, 32767]`. -/
theorem C1_fold_roundtrip (w : ℤ) (h0 : 0 ≤ w) (h1 : w ≤ 65535) :
    to_u (to_s w) = w ∧ (w ≤ 32767 → to_s (to_u w) = w) := by
  unfold to_u to_s
  split_ifs <;> omega

/-- Witness for C1 at the concrete word 40000. -/
theorem C1_fold_roundtrip_witness :
    (0 : ℤ) ≤ 40000 ∧ (40000 : ℤ) ≤ 65535 ∧
      (to_u (to_s 40000) = 40000 ∧ ((40000 : ℤ) ≤ 32767 → to_s (to_u 40000) = 40000)) :=
  ⟨by norm_num, by norm_num, C1_fold_roundtrip 40000 (by norm_num) (by norm_num)⟩

/-! ## C2 — solar temperature decoding range -/

/-- C2, counterexample: the claim asserts the engineering formula on the
CLOSED interval `[4000, 40000]`, but `calc_so` uses strict comparisons: at
raw = 4000 it returns 0.0 while the formula value is `-22402/60 ≈ -373.37`,
far beyond any float tolerance. -/
theorem C2_closed_interval_counterexample :
    calc_so 4000 = 0 ∧ |calc_so 4000 - (((4000 : ℤ) : ℚ) - 26402) / 60| > 300 := by
  have h : calc_so 4000 = 0 := by rw [calc_so, if_neg (by norm_num)]
  refine ⟨h, ?_⟩
  rw [h]
  norm_num
  rw [abs_of_pos (by norm_num)]
  norm_num

/-- C2, amended: for every raw value in the OPEN interval `(4000, 40000)`
the decoded solar temperature is `(raw - 26402)/60` rounded to two decimal
places (hence within `1/200` of the exact formula value), and for every raw
value outside the open interval `calc_so` returns the sentinel `0.0`
instead of an engineering value. -/
theorem C2_solar_decode (r : ℤ) :
    (4000 < r → r < 40000 →
      calc_so r = round2 (((r : ℚ) - 26402) / 60) ∧
      |calc_so r - ((r : ℚ) - 26402) / 60| ≤ 1 / 200) ∧
    (r ≤ 4000 ∨ 40000 ≤ r → calc_so r = 0) := by
  constructor
  · intro h1 h2
    have hc : calc_so r = round2 (((r : ℚ) - 26402) / 60) := by
      rw [calc_so, if_pos ⟨h1, h2⟩]
    refine ⟨hc, ?_⟩
    rw [hc, round2]
    set q : ℚ := ((r : ℚ) - 26402) / 60 with hq
    have key : ((round (q * 100) : ℚ) / 100 - q) = ((round (q * 100) : ℚ) - q * 100) / 100 := by
      ring
    rw [key, abs_div]
    have habs : |(100 : ℚ)| = 100 := by norm_num
    rw [habs]
    have h := abs_sub_round (q * 100)
    rw [abs_sub_comm] at h
    linarith
  · intro h
    rw [calc_so, if_neg (by omega)]

/-- Witness for C2 at raw = 26462 (in range, decodes to 1.00) and raw = 4000
(out of the open range, sentinel 0.0). -/
theorem C2_solar_decode_witness :
    calc_so 26462 = round2 ((((26462 : ℤ) : ℚ) - 26402) / 60) ∧ calc_so 4000 = 0 :=
  ⟨((C2_solar_decode 26462).1 (by norm_num) (by norm_num)).1,
   (C2_solar_decode 4000).2 (Or.inl (by norm_num))⟩

/-! ## C9 — out-of-range samples are indistinguishable from 0.00 °C -/

/-- C9: every raw value outside the open interval `(4000, 40000)` decodes to
exactly `0.0` — the very value the in-range raw 26402 decodes to — so at
the output of `calc_so` an invalid sample cannot be told apart from a
genuine 0.00 °C reading. -/
theorem C9_sentinel_indistinguishable (r : ℤ) (h : r ≤ 4000 ∨ 40000 ≤ r) :
    calc_so r = 0 ∧ calc_so r = calc_so 26402 := by
  have hr : calc_so r = 0 := by rw [calc_so, if_neg (by omega)]
  exact ⟨hr, by rw [hr, calc_so_center]⟩

/-- Witness for C9 at the concrete out-of-range raw value 65535. -/
theorem C9_sentinel_indistinguishable_witness :
    ((65535 : ℤ) ≤ 4000 ∨ (40000 : ℤ) ≤ 65535) ∧
      (calc_so 65535 = 0 ∧ calc_so 65535 = calc_so 26402) :=
  ⟨Or.inr (by norm_num), C9_sentinel_indistinguishable 65535 (Or.inr (by norm_num))⟩

/-! ## C10 — read helpers return None on every failure mode -/

/-- C10: `read_register` and `read_block` return `None` both on a Modbus
error response and on a raised `ModbusException` (which they catch, never
propagating it), and on success return the register value(s) unchanged. -/
theorem C10_read_helpers_total :
    (∀ v l, read_register (ModbusResult.success (v :: l)) = some v) ∧
    read_register ModbusResult.errorResponse = none ∧
    read_register ModbusResult.modbusException = none ∧
    (∀ l, read_block (ModbusResult.success l) = some l) ∧
    read_block ModbusResult.errorResponse = none ∧
    read_block ModbusResult.modbusException = none :=
  ⟨fun _ _ => rfl, rfl, rfl, fun _ => rfl, rfl, rfl⟩

/-! ## C4 — ensure_columns is idempotent and additive-only -/

/-- C4: `ensure_pivot_columns` is idempotent and additive-only — running it
again on the schema produced by a first run issues no ALTER statement at
all; every ALTER it ever issues is for a column absent from the
introspected set; and every existing column survives every call. -/
theorem C4_ensure_columns_idempotent_additive (existing : List String) :
    ensureColumnsAlters (ensureColumns existing) = [] ∧
    (∀ c ∈ ensureColumnsAlters existing, c ∉ existing) ∧
    (∀ c ∈ existing, c ∈ ensureColumns existing) := by
  refine ⟨?_, ?_, ?_⟩
  · rw [ensureColumnsAlters, List.filter_eq_nil_iff]
    intro c hc
    have hmem : c ∈ ensureColumns existing := by
      by_cases h : c ∈ existing
      · exact List.mem_append_left _ h
      · refine List.mem_append_right _ ?_
        rw [ensureColumnsAlters, List.mem_filter]
        exact ⟨hc, by simp [List.contains, h]⟩
    simp [List.contains, hmem]
  · intro c hc
    rw [ensureColumnsAlters, List.mem_filter] at hc
    simpa [List.contains] using hc.2
  · intro c hc
    exact List.mem_append_left _ hc

/-- Witness for C4 on the concrete baseline schema `["id", "timestamp"]`. -/
theorem C4_ensure_columns_witness :
    ensureColumnsAlters (ensureColumns ["id", "timestamp"]) = [] ∧
      "Hot_water_temperature" ∉ (["id", "timestamp"] : List String) ∧
      "timestamp" ∈ ensureColumns ["id", "timestamp"] :=
  ⟨(C4_ensure_columns_idempotent_additive ["id", "timestamp"]).1,
   (C4_ensure_columns_idempotent_additive ["id", "timestamp"]).2.1
     "Hot_water_temperature" (by decide),
   (C4_ensure_columns_idempotent_additive ["id", "timestamp"]).2.2
     "timestamp" (by decide)⟩

/-! ## C5 — bit decoding is restricted to declared bits -/

/-- Helper: a bit-column name generated from any declared BIT_MAP entry is
one of the known bit-column names. -/
lemma bitColName_mem (e : ℕ × List (ℕ × String)) (he : e ∈ BIT_MAP)
    (b : ℕ × String) (hb : b ∈ e.2) : bitColName b.1 b.2 ∈ bitColNames := by
  rw [bitColNames, List.mem_flatten]
  exact ⟨e.2.map (fun b => bitColName b.1 b.2), List.mem_map_of_mem _ he,
    List.mem_map_of_mem _ hb⟩

/-- Helper: membership in a BIT_MAP dictionary lookup comes from a BIT_MAP
entry for that address. -/
lemma mem_bitMapFor (a : ℕ) (b : ℕ × String) (hb : b ∈ bitMapFor a) :
    ∃ e ∈ BIT_MAP, e.1 = a ∧ b ∈ e.2 := by
  rw [bitMapFor] at hb
  cases hf : BIT_MAP.find? (fun e => e.1 == a) with
  | none => rw [hf] at hb; simp at hb
  | some e =>
    rw [hf] at hb
    simp only [Option.map_some', Option.getD_some] at hb
    exact ⟨e, List.mem_of_find?_eq_some hf, by simpa using List.find?_some hf, hb⟩

/-- C5, counterexample: the one-argument `decode_bits` of maconread2db.py
violates the claim — bit 0 is not declared for address 2135, yet
`decode_bits 0` reports an entry for bit index 0 (with value zero), and in
fact reports all sixteen bit positions. -/
theorem C5_undeclared_bits_counterexample :
    (0 ∉ (bitMapFor 2135).map Prod.fst) ∧ ((0, 0) ∈ decode_bits 0) ∧
      (decode_bits 0).length = 16 := by
  refine ⟨by decide, by decide, by decide⟩

/-- C5, amended: the two-argument `decode_bits` of write_freq.py returns
entries for exactly the bit indices declared for the given address
(undeclared indices are omitted); the one-argument `decode_bits` of
maconread2db.py instead reports all sixteen bit positions, and there the
restriction to declared bits happens in the `bit_expanded` assembly of
main(), whose entries all carry declared bit-column names. -/
theorem C5_declared_bits_restriction (value reg : ℕ) :
    ((decode_bits_wf value reg).map (fun e => e.1) = (bitFieldsFor reg).map Prod.fst) ∧
    ((decode_bits value).map Prod.fst = List.range 16) ∧
    (∀ i v, ∀ c ∈ (bitPiece i v).map Prod.fst, c ∈ bitColNames) := by
  refine ⟨?_, ?_, ?_⟩
  · rw [decode_bits_wf, List.map_map]
    rfl
  · rw [decode_bits, List.map_map]
    exact List.map_id _
  · intro i v c hc
    rw [List.mem_map] at hc
    obtain ⟨x, hx, rfl⟩ := hc
    unfold bitPiece at hx
    split at hx
    · split at hx
      · rw [List.mem_map] at hx
        obtain ⟨b, hb2, rfl⟩ := hx
        obtain ⟨e, he, _, hbe⟩ := mem_bitMapFor _ _ hb2
        exact bitColName_mem e he b hbe
      · simp at hx
    · simp at hx

/-! ## C8 — diagnosis of a zero raw value -/

/-- C8: with a raw channel value of exactly 0 (whatever the active phase —
the DIAGNOSE block of debug_multiplexer.py reads only the raw values, so in
particular with phase B active), the classification lands in the
`raw_so == 0` branch, which hypothesises a disconnected sensor or a
multiplexer that is not switching, and never in the out-of-range-high
branch; debug_solar.py likewise classifies raw 0 as
too-low/short-or-disconnected, not too-high.  Determinism is immediate:
the embedded classifications are pure functions of their inputs. -/
theorem C8_zero_raw_classification (raw_vl raw_ww : ℕ) :
    (diagnosis 0 raw_vl raw_ww = SolarDiag.sensorDisconnectedOrMux ∨
     diagnosis 0 raw_vl raw_ww = SolarDiag.phaseBMuxNotWorking) ∧
    diagnosis 0 raw_vl raw_ww ≠ SolarDiag.rawTooHigh ∧
    ds_diagnosis 0 = DsDiag.tooLowShortOrDisconnected ∧
    ds_diagnosis 0 ≠ DsDiag.tooHigh := by
  unfold diagnosis ds_diagnosis
  by_cases h : 0 < raw_vl ∧ 0 < raw_ww <;> simp [h]

/-! ## C6 — phase resolution is total and matches status bit 4 -/

/-- Helper: masking any integer (Python two-complement AND) with `0x10`
isolates bit 4. -/
lemma land_sixteen (s : ℤ) : Int.land s 16 = if s.testBit 4 then 16 else 0 := by
  cases s with
  | ofNat n =>
    have h1 : Int.land (Int.ofNat n) 16 = Int.ofNat (n &&& 16) := rfl
    have h2 : Int.testBit (Int.ofNat n) 4 = n.testBit 4 := rfl
    rw [h1, h2]
    have h16 : (16 : ℕ) = 2 ^ 4 := by norm_num
    rw [h16, Nat.and_two_pow]
    cases n.testBit 4 <;> simp
  | negSucc m =>
    have h1 : Int.land (Int.negSucc m) 16 = Int.ofNat (Nat.ldiff 16 m) := rfl
    have h2 : Int.testBit (Int.negSucc m) 4 = !(m.testBit 4) := rfl
    rw [h1, h2]
    have key : Nat.ldiff 16 m = if !(m.testBit 4) then 16 else 0 := by
      apply Nat.eq_of_testBit_eq
      intro k
      rw [Nat.testBit_ldiff]
      have h16 : (16 : ℕ) = 2 ^ 4 := by norm_num
      cases hb : m.testBit 4 with
      | true =>
        simp only [hb, Bool.not_true, if_false, Nat.zero_testBit]
        rw [h16, Nat.testBit_two_pow]
        by_cases hk : k = 4
        · subst hk; simp [hb]
        · simp [Ne.symm hk]
      | false =>
        simp only [hb, Bool.not_false, if_true]
        rw [h16, Nat.testBit_two_pow]
        by_cases hk : k = 4
        · subst hk; simp [hb]
        · simp [Ne.symm hk]
    rw [key]
    cases m.testBit 4 <;> simp

/-- Helper: the truthiness test `bool(status & 0x10)` is exactly bit 4 of
the status integer. -/
lemma phase_a_eq_testBit (s : ℤ) : phase_a s = s.testBit 4 := by
  rw [phase_a, land_sixteen]
  cases h : s.testBit 4 <;> simp

/-- Helper: folding a raw 16-bit word to signed preserves bit 4. -/
lemma to_s_testBit (w : ℕ) (hw : w < 65536) :
    (to_s w).testBit 4 = w.testBit 4 := by
  rw [to_s]
  by_cases h : (w : ℤ) < 32768
  · rw [if_pos h]
    rfl
  · rw [if_neg h]
    have hub : w ≤ 65535 := by omega
    have hm : (w : ℤ) - 65536 = Int.negSucc (65535 - w) := by
      rw [Int.negSucc_eq]
      push_cast [Nat.cast_sub hub]
      ring
    rw [hm]
    have h3 : Int.testBit (Int.negSucc (65535 - w)) 4 = !((65535 - w).testBit 4) := rfl
    rw [h3]
    have hp : (2 : ℕ) ^ 16 = 65536 := by norm_num
    have key := Nat.testBit_two_pow_sub_succ (x := w) (n := 16) (by rw [hp]; exact hw) 4
    rw [hp] at key
    have h65 : 65536 - (w + 1) = 65535 - w := by omega
    rw [h65] at key
    rw [key]
    simp

/-- C6: phase resolution is total and exhaustive — for every 16-bit status
word the resolver yields exactly one phase of {A, B}, never failing: phase
A exactly when status bit 4 is set, phase B exactly when it is clear.  (The
resolution reads only the status word, so it is independent of the raw
channel values.) -/
theorem C6_phase_resolution_total (status : ℕ) (h : status < 65536) :
    (phaseOf status = Phase.A ∨ phaseOf status = Phase.B) ∧
    (phaseOf status = Phase.A ↔ status.testBit 4 = true) ∧
    (phaseOf status = Phase.B ↔ status.testBit 4 = false) := by
  have hb : phase_a (to_s status) = status.testBit 4 := by
    rw [phase_a_eq_testBit, to_s_testBit status h]
  rw [phaseOf, hb]
  cases hbit : status.testBit 4 <;> simp

/-- Witness for C6 at the concrete status words 16 (bit 4 set, phase A). -/
theorem C6_phase_resolution_witness :
    16 < 65536 ∧
      ((phaseOf 16 = Phase.A ∨ phaseOf 16 = Phase.B) ∧
       (phaseOf 16 = Phase.A ↔ Nat.testBit 16 4 = true) ∧
       (phaseOf 16 = Phase.B ↔ Nat.testBit 16 4 = false)) :=
  ⟨by norm_num, C6_phase_resolution_total 16 (by norm_num)⟩

/-! ## C7 — the 26402 / phase-B scenario -/

/-- C7: when the status word has bit 4 clear the resolved phase is B, and
the raw channel value 26402 (at index 7) decodes to exactly 0.00 °C and
passes the validity range display check `4000 <= raw <= 40000`. -/
theorem C7_scenario_26402_phaseB (status : ℕ) (h : status < 65536)
    (hbit : status.testBit 4 = false) :
    phaseOf status = Phase.B ∧ calc_so 26402 = 0 ∧ so_in_range 26402 = true := by
  refine ⟨?_, calc_so_center, by decide⟩
  have hb : phase_a (to_s status) = status.testBit 4 := by
    rw [phase_a_eq_testBit, to_s_testBit status h]
  rw [phaseOf, hb, hbit]
  rfl

/-- Witness for C7 at the concrete status word 0. -/
theorem C7_scenario_witness :
    0 < 65536 ∧ Nat.testBit 0 4 = false ∧
      (phaseOf 0 = Phase.B ∧ calc_so 26402 = 0 ∧ so_in_range 26402 = true) :=
  ⟨by norm_num, by decide, C7_scenario_26402_phaseB 0 (by norm_num) (by decide)⟩

/-! ## C3 — helper lemmas about the assembled pivot row -/

/-- Helper: with a successful block read the Python truthiness guard on
`ro_data` is immaterial for the assembled row. -/
lemma mainRow_some (readVal : ℕ → Option ℕ) (ro : List ℕ) (vf : Option ℚ) :
    mainRow readVal (some ro) vf =
      insert_pivot_row (rwResults readVal ++ roResults ro) (bitExpanded ro) vf := by
  by_cases h : ro = [] <;> simp [mainRow, h]

/-- Helper: a successful REGISTER_MAP lookup comes from a REGISTER_MAP
entry. -/
lemma regMap_mem {a : ℕ} {nu : String × Option String} (h : regMap a = some nu) :
    (a, nu) ∈ REGISTER_MAP := by
  rw [regMap] at h
  cases hf : REGISTER_MAP.find? (fun e => e.1 == a) with
  | none => rw [hf] at h; simp at h
  | some e =>
    rw [hf] at h
    have hnu : nu = e.2 := by simpa using h.symm
    subst hnu
    have he := List.mem_of_find?_eq_some hf
    have hkey : e.1 = a := by simpa using List.find?_some hf
    rw [← hkey]
    simpa using he

/-- Helper: distinct register addresses carry distinct column names. -/
lemma regMap_names_inj : ∀ e1 ∈ REGISTER_MAP, ∀ e2 ∈ REGISTER_MAP,
    e1.2.1 = e2.2.1 → e1.1 = e2.1 := by decide

/-- Helper: no measurement column name collides with a bit-flag column, the
Volumeflow column or the timestamp column. -/
lemma regMap_name_not_reserved : ∀ e ∈ REGISTER_MAP,
    e.2.1 ∉ bitColNames ∧ e.2.1 ≠ "Volumeflow" ∧ e.2.1 ≠ "timestamp" := by decide

/-- Helper: the individually read registers all live below the block-read
range starting at 2100. -/
lemma rwRegs_lt : ∀ a ∈ rwRegs, a < 2100 := by decide

/-- Helper: the Volumeflow column is not a bit-flag column. -/
lemma volumeflow_not_bitCol : "Volumeflow" ∉ bitColNames := by decide

/-- Helper: two successful lookups at distinct addresses yield distinct
column names. -/
lemma rw_names_distinct {r1 r2 : ℕ} {nu1 nu2 : String × Option String}
    (h1 : regMap r1 = some nu1) (h2 : regMap r2 = some nu2) (hne : r1 ≠ r2) :
    nu1.1 ≠ nu2.1 := by
  intro heq
  exact hne (regMap_names_inj _ (regMap_mem h1) _ (regMap_mem h2) heq)

/-- Helper: every entry of the read-write results names a register of the
read-write list whose read succeeded. -/
lemma mem_rwResults {readVal : ℕ → Option ℕ} {x : String × ℕ}
    (hx : x ∈ rwResults readVal) :
    ∃ reg ∈ rwRegs, ∃ nu, regMap reg = some nu ∧ readVal reg = some x.2 ∧ x.1 = nu.1 := by
  rw [rwResults, List.mem_flatten] at hx
  obtain ⟨l, hl, hxl⟩ := hx
  rw [List.mem_map] at hl
  obtain ⟨reg, hreg, rfl⟩ := hl
  refine ⟨reg, hreg, ?_⟩
  unfold rwPiece at hxl
  split at hxl
  · next v nu heq1 heq2 =>
    have hx2 : x = (nu.1, v) := by simpa using hxl
    exact ⟨nu, heq2, by rw [hx2, heq1], by rw [hx2]⟩
  · next => simp at hxl

/-- Helper: every entry of the read-only results names a register at an
address of the block range. -/
lemma mem_roResults {ro : List ℕ} {x : String × ℕ} (hx : x ∈ roResults ro) :
    ∃ i nu, regMap (2100 + i) = some nu ∧ x.1 = nu.1 := by
  rw [roResults, List.mem_flatten] at hx
  obtain ⟨l, hl, hxl⟩ := hx
  rw [List.mem_map] at hl
  obtain ⟨p, _, rfl⟩ := hl
  unfold roPiece at hxl
  split at hxl
  · next nu heq =>
    have hx2 : x = (nu.1, p.2) := by simpa using hxl
    exact ⟨p.1, nu, heq, by rw [hx2]⟩
  · next => simp at hxl

/-- Helper: every entry of the expanded bit flags carries a declared
bit-column name. -/
lemma mem_bitExpanded {ro : List ℕ} {x : String × ℕ} (hx : x ∈ bitExpanded ro) :
    x.1 ∈ bitColNames := by
  rw [bitExpanded, List.mem_flatten] at hx
  obtain ⟨l, hl, hxl⟩ := hx
  rw [List.mem_map] at hl
  obtain ⟨p, _, rfl⟩ := hl
  unfold bitPiece at hxl
  split at hxl
  · split at hxl
    · rw [List.mem_map] at hxl
      obtain ⟨b, hb2, rfl⟩ := hxl
      obtain ⟨e, he, _, hbe⟩ := mem_bitMapFor _ _ hb2
      exact bitColName_mem e he b hbe
    · simp at hxl
  · simp at hxl

/-- Helper: a column absent from every entry of the INSERT list is not
found. -/
lemma find?_eq_none_of_names {row : List (String × Cell)} {target : String}
    (h : ∀ x ∈ row, x.1 ≠ target) :
    row.find? (fun e => e.1 == target) = none :=
  List.find?_eq_none.mpr (fun x hx => by simpa using h x hx)

/-- Helper: lookup of a column absent from every entry yields none. -/
lemma lookupCol_eq_none {row : List (String × Cell)} {target : String}
    (h : ∀ x ∈ row, x.1 ≠ target) : lookupCol row target = none := by
  rw [lookupCol, find?_eq_none_of_names h]
  rfl

/-- Helper: a register piece whose column name differs from the target
contributes nothing to the lookup, whatever its read outcome. -/
lemma find?_map_rwPiece_none (readVal : ℕ → Option ℕ) (reg : ℕ) (target : String)
    (h : ∀ nu, regMap reg = some nu → nu.1 ≠ target) :
    ((rwPiece readVal reg).map (fun p => (p.1, Cell.intval p.2))).find?
      (fun e => e.1 == target) = none := by
  apply find?_eq_none_of_names
  intro x hx
  rw [List.mem_map] at hx
  obtain ⟨p, hp, rfl⟩ := hx
  unfold rwPiece at hp
  split at hp
  · next v nu heq1 heq2 =>
    have hp2 : p = (nu.1, v) := by simpa using hp
    rw [hp2]
    exact h nu heq2
  · next => simp at hp

/-- Helper: the register piece of a successful read is found under its own
column name. -/
lemma find?_map_rwPiece_hit (readVal : ℕ → Option ℕ) (reg : ℕ)
    (nu : String × Option String) (v : ℕ)
    (hm : regMap reg = some nu) (hv : readVal reg = some v) :
    ((rwPiece readVal reg).map (fun p => (p.1, Cell.intval p.2))).find?
      (fun e => e.1 == nu.1) = some (nu.1, Cell.intval v) := by
  unfold rwPiece
  rw [hv, hm]
  simp [List.find?]

/-- Helper: scanning the flattened read-write pieces finds the entry of a
successfully read register whose name no other listed register shares. -/
lemma find?_rwFlatten_of_mem (readVal : ℕ → Option ℕ) (regs : List ℕ) (r2 : ℕ)
    (hr2 : r2 ∈ regs) (nu : String × Option String) (v : ℕ)
    (hm : regMap r2 = some nu) (hv : readVal r2 = some v)
    (hdist : ∀ reg ∈ regs, reg ≠ r2 → ∀ nu2, regMap reg = some nu2 → nu2.1 ≠ nu.1) :
    (((regs.map (rwPiece readVal)).flatten).map (fun p => (p.1, Cell.intval p.2))).find?
      (fun e => e.1 == nu.1) = some (nu.1, Cell.intval v) := by
  induction regs with
  | nil => simp at hr2
  | cons a regs ih =>
    simp only [List.map_cons, List.flatten_cons, List.map_append, List.find?_append]
    by_cases ha : a = r2
    · subst ha
      rw [find?_map_rwPiece_hit readVal a nu v hm hv]
      rfl
    · rw [find?_map_rwPiece_none readVal a nu.1
        (fun nu2 hm2 => hdist a (List.mem_cons_self a regs) (Ne.symm (fun he => ha he.symm)) nu2 hm2)]
      rw [Option.none_or]
      have hr2m : r2 ∈ regs := by
        rcases List.mem_cons.mp hr2 with h | h
        · exact absurd h.symm ha
        · exact h
      exact ih hr2m (fun reg hreg => hdist reg (List.mem_cons_of_mem a hreg))

/-- Helper: lookup of a name that no part of the assembled row carries. -/
lemma lookupCol_mainRow_none (readVal : ℕ → Option ℕ) (ro : List ℕ) (vf : Option ℚ)
    (target : String)
    (ht : target ≠ "timestamp")
    (hrw : ∀ reg ∈ rwRegs, ∀ nu, regMap reg = some nu → (readVal reg).isSome → nu.1 ≠ target)
    (hro : ∀ i nu, regMap (2100 + i) = some nu → nu.1 ≠ target)
    (hbit : target ∉ bitColNames)
    (hvf : target ≠ "Volumeflow") :
    lookupCol (mainRow readVal (some ro) vf) target = none := by
  rw [mainRow_some]
  apply lookupCol_eq_none
  intro x hx
  rw [insert_pivot_row] at hx
  simp only [List.mem_cons, List.mem_append, List.mem_map, List.mem_singleton] at hx
  rcases hx with h1 | (⟨p, hp, rfl⟩ | ⟨p, hp, rfl⟩) | h4 | h5
  · rw [h1]
    exact Ne.symm ht
  · rcases hp with hp | hp
    · obtain ⟨reg, hreg, nu, hm, hv, hname⟩ := mem_rwResults hp
      have : nu.1 ≠ target := hrw reg hreg nu hm (by rw [hv]; rfl)
      simpa [hname] using this
    · obtain ⟨i, nu, hm, hname⟩ := mem_roResults hp
      have : nu.1 ≠ target := hro i nu hm
      simpa [hname] using this
  · have := mem_bitExpanded hp
    exact fun hc => hbit (hc ▸ this)
  · rw [h4]
    exact Ne.symm hvf
  · simp at h5

/-- Helper: the timestamp column is always the first column of the INSERT. -/
lemma lookupCol_mainRow_ts (readVal : ℕ → Option ℕ) (ro : List ℕ) (vf : Option ℚ) :
    lookupCol (mainRow readVal (some ro) vf) "timestamp" = some Cell.ts := by
  rw [mainRow_some, insert_pivot_row, lookupCol]
  simp [List.find?]

/-- Helper: lookup of the column of a successfully read register. -/
lemma lookupCol_mainRow_rw (readVal : ℕ → Option ℕ) (ro : List ℕ) (vf : Option ℚ)
    (r2 : ℕ) (hr2 : r2 ∈ rwRegs) (nu : String × Option String) (v : ℕ)
    (hm : regMap r2 = some nu) (hv : readVal r2 = some v) :
    lookupCol (mainRow readVal (some ro) vf) nu.1 = some (Cell.intval v) := by
  have hts : nu.1 ≠ "timestamp" := (regMap_name_not_reserved _ (regMap_mem hm)).2.2
  rw [mainRow_some, lookupCol, insert_pivot_row]
  rw [List.find?_cons_of_neg _ (by simpa using Ne.symm hts)]
  rw [List.map_append, List.find?_append, List.find?_append, List.find?_append]
  rw [rwResults]
  rw [find?_rwFlatten_of_mem readVal rwRegs r2 hr2 nu v hm hv
    (fun reg _ hne nu2 hm2 => rw_names_distinct hm2 hm hne)]
  rfl

/-- Helper: the Volumeflow column is always the last column of the INSERT,
carrying NULL exactly when the auxiliary fetch failed. -/
lemma lookupCol_mainRow_vf (readVal : ℕ → Option ℕ) (ro : List ℕ) (vf : Option ℚ) :
    lookupCol (mainRow readVal (some ro) vf) "Volumeflow" = some (vfCell vf) := by
  rw [mainRow_some, lookupCol, insert_pivot_row]
  rw [List.find?_cons_of_neg _ (by decide)]
  rw [List.find?_append]
  have h1 : ((rwResults readVal ++ roResults ro).map (fun p => (p.1, Cell.intval p.2)) ++
      (bitExpanded ro).map (fun p => (p.1, Cell.intval p.2))).find?
      (fun e => e.1 == "Volumeflow") = none := by
    apply find?_eq_none_of_names
    intro x hx
    simp only [List.mem_append, List.mem_map] at hx
    rcases hx with ⟨p, hp, rfl⟩ | ⟨p, hp, rfl⟩
    · rcases hp with hp | hp
      · obtain ⟨reg, _, nu, hm, _, hname⟩ := mem_rwResults hp
        have := (regMap_name_not_reserved _ (regMap_mem hm)).2.1
        simpa [hname] using this
      · obtain ⟨i, nu, hm, hname⟩ := mem_roResults hp
        have := (regMap_name_not_reserved _ (regMap_mem hm)).2.1
        simpa [hname] using this
    · have := mem_bitExpanded hp
      exact fun hc => volumeflow_not_bitCol (hc ▸ this)
  rw [h1, Option.none_or]
  simp [List.find?]

/-- C3: in a poll cycle where exactly one of the individually read
registers fails (its read returns no value) and the auxiliary Volumeflow
fetch also fails, the pivot row is still assembled and inserted — its
timestamp column present — with every other configured register column
populated with its read value, while the failed measurement column and the
Volumeflow column are NULL in the persisted row (the failed measurement is
simply omitted from the INSERT, so the column takes its declared
`FLOAT NULL` default).  The row is never dropped: `mainRow` produces the
INSERT unconditionally. -/
theorem C3_partial_row_persisted (readVal : ℕ → Option ℕ) (ro : List ℕ) (r : ℕ)
    (hr : r ∈ rwRegs) (hfail : readVal r = none)
    (hok : ∀ r2 ∈ rwRegs, r2 ≠ r → (readVal r2).isSome) :
    lookupCol (mainRow readVal (some ro) none) "timestamp" = some Cell.ts ∧
    (∀ nu, regMap r = some nu →
      persisted (mainRow readVal (some ro) none) nu.1 = Cell.null) ∧
    (∀ r2 ∈ rwRegs, r2 ≠ r → ∀ nu2, regMap r2 = some nu2 →
      ∃ v, readVal r2 = some v ∧
        persisted (mainRow readVal (some ro) none) nu2.1 = Cell.intval v) ∧
    persisted (mainRow readVal (some ro) none) "Volumeflow" = Cell.null := by
  refine ⟨lookupCol_mainRow_ts readVal ro none, ?_, ?_, ?_⟩
  · intro nu hm
    have hres := regMap_name_not_reserved _ (regMap_mem hm)
    have hnone : lookupCol (mainRow readVal (some ro) none) nu.1 = none := by
      apply lookupCol_mainRow_none
      · exact hres.2.2
      · intro reg hreg nu2 hm2 hsome
        by_cases he : reg = r
        · subst he
          rw [hfail] at hsome
          simp at hsome
        · exact rw_names_distinct hm2 hm he
      · intro i nu2 hm2
        have hlt := rwRegs_lt r hr
        exact rw_names_distinct hm2 hm (by omega)
      · exact hres.1
      · exact hres.2.1
    rw [persisted, hnone, if_neg hres.1]
  · intro r2 hr2 hne nu2 hm2
    obtain ⟨v, hv⟩ := Option.isSome_iff_exists.mp (hok r2 hr2 hne)
    refine ⟨v, hv, ?_⟩
    rw [persisted, lookupCol_mainRow_rw readVal ro none r2 hr2 nu2 v hm2 hv]
  · rw [persisted, lookupCol_mainRow_vf readVal ro none]
    rfl

/-- Witness for C3: the read of register 2047 fails, the five other
individually read registers return 7, the block read returns an empty list
and the Volumeflow fetch fails. -/
theorem C3_partial_row_witness :
    2047 ∈ rwRegs ∧
    (fun reg => if reg = 2047 then none else some 7) 2047 = none ∧
    (∀ r2 ∈ rwRegs, r2 ≠ 2047 →
      ((fun reg => if reg = 2047 then none else some 7) r2).isSome) ∧
    (lookupCol (mainRow (fun reg => if reg = 2047 then none else some 7) (some []) none)
        "timestamp" = some Cell.ts ∧
      (∀ nu, regMap 2047 = some nu →
        persisted (mainRow (fun reg => if reg = 2047 then none else some 7) (some []) none)
          nu.1 = Cell.null) ∧
      (∀ r2 ∈ rwRegs, r2 ≠ 2047 → ∀ nu2, regMap r2 = some nu2 →
        ∃ v, (fun reg => if reg = 2047 then none else some 7) r2 = some v ∧
          persisted (mainRow (fun reg => if reg = 2047 then none else some 7) (some []) none)
            nu2.1 = Cell.intval v) ∧
      persisted (mainRow (fun reg => if reg = 2047 then none else some 7) (some []) none)
        "Volumeflow" = Cell.null) :=
  ⟨by decide, rfl, by decide,
   C3_partial_row_persisted (fun reg => if reg = 2047 then none else some 7) [] 2047
     (by decide) rfl (by decide)⟩

end Macon
